import Mathlib

/-!
Verification of `neotest_python/djangotest.py`, a neotest → Django test
adapter.  Python strings are modelled as `List Char`; the pieces of the
Python standard library the source calls (`str.split`, `str.join`,
`str.replace`, `os.path.splitext`, `os.path.relpath`, `posixpath.normpath`,
`posixpath.join`) are modelled faithfully after CPython's `posixpath`
implementation.  The filesystem (`os.path.isfile`) and the current working
directory (`os.getcwd`) are parameters.  A Python expression that raises an
uncaught exception is modelled by `Option.none`.
-/

set_option autoImplicit false

namespace Djangotest

/-- A Python `str`, modelled as its list of characters. -/
abbrev PyStr := List Char

/-- Auxiliary scanner for `str.split` with a non-empty separator: scans
left to right, cutting at each leftmost occurrence of `sep`; `acc` holds the
current piece reversed.  Recursion is on a fuel bounding the string length
(both branches consume at least one character when `sep` is non-empty, so
the fuel never runs out when it starts at `s.length`).  For the empty
separator Python raises; this model is only applied to the separators
`"::"`, `"/"` appearing in the source. -/
def pySplitF (sep : PyStr) : Nat → PyStr → PyStr → List PyStr
  | _, [], acc => [acc.reverse]
  | 0, s, acc => [acc.reverse ++ s]
  | fuel + 1, c :: rest, acc =>
    if sep.isPrefixOf (c :: rest) then
      acc.reverse :: pySplitF sep fuel (rest.drop (sep.length - 1)) []
    else
      pySplitF sep fuel rest (c :: acc)

/-- Python `s.split(sep)` for non-empty `sep`. -/
def pySplit (sep s : PyStr) : List PyStr :=
  pySplitF sep s.length s []

/-- Python `sep.join(elems)`. -/
def pyJoin (sep : PyStr) : List PyStr → PyStr
  | [] => []
  | [e] => e
  | e :: es => e ++ sep ++ pyJoin sep es

/-- Python `s.replace(old, new)` for non-empty `old`: replaces each
non-overlapping occurrence of `old`, scanning left to right. -/
def pyReplace (old new s : PyStr) : PyStr :=
  pyJoin new (pySplit old s)

/-- Index of the last occurrence of `c` in `s`, or `-1` (Python `str.rfind`
with a single-character needle). -/
def rfindChar (c : Char) : PyStr → Int
  | [] => -1
  | a :: rest =>
    let r := rfindChar c rest
    if r ≥ 0 then r + 1
    else if a == c then 0 else -1

/-- The root part of CPython `posixpath.splitext(p)` (the source only uses
`splitext(...)[0]`): cut at the last dot when it lies after the last slash
and the basename up to it is not made of dots only. -/
def splitextRoot (p : PyStr) : PyStr :=
  let sepIdx := rfindChar '/' p
  let dotIdx := rfindChar '.' p
  if dotIdx > sepIdx then
    let probe := (p.drop (sepIdx + 1).toNat).take (dotIdx - sepIdx - 1).toNat
    if probe.any (fun ch => ch != '.') then p.take dotIdx.toNat else p
  else p

/-- CPython `posixpath.isabs`. -/
def isabs (p : PyStr) : Bool :=
  p.take 1 = ['/']

/-- CPython `posixpath.join` on two components. -/
def pyjoin2 (a b : PyStr) : PyStr :=
  if isabs b then b
  else if a = [] ∨ a.getLast? = some '/' then a ++ b
  else a ++ ['/'] ++ b

/-- CPython `posixpath.normpath`. -/
def normpath (p : PyStr) : PyStr :=
  if p = [] then ['.']
  else
    let initialSlashes : Nat :=
      if p.take 1 = ['/'] then
        if p.take 2 = ['/', '/'] ∧ p.take 3 ≠ ['/', '/', '/'] then 2 else 1
      else 0
    let comps := pySplit ['/'] p
    let newComps := comps.foldl
      (fun acc comp =>
        if comp = [] ∨ comp = ['.'] then acc
        else if comp ≠ ['.', '.'] ∨ (initialSlashes = 0 ∧ acc = [])
            ∨ (acc ≠ [] ∧ acc.getLast? = some ['.', '.']) then
          acc ++ [comp]
        else if acc ≠ [] then acc.dropLast
        else acc)
      []
    let joined := List.replicate initialSlashes '/' ++ pyJoin ['/'] newComps
    if joined = [] then ['.'] else joined

/-- CPython `posixpath.abspath`, with the process working directory `cwd`
as a parameter. -/
def abspath (cwd p : PyStr) : PyStr :=
  if isabs p then normpath p else normpath (pyjoin2 cwd p)

/-- Length of the longest common prefix of two component lists
(`os.path.commonprefix` applied to a pair). -/
def commonPrefixLen : List PyStr → List PyStr → Nat
  | x :: xs, y :: ys => if x = y then commonPrefixLen xs ys + 1 else 0
  | _, _ => 0

/-- CPython `posixpath.relpath(path, start)` with `start = cwd`; CPython
raises `ValueError` on an empty `path`, modelled by `none`. -/
def relpath (cwd path : PyStr) : Option PyStr :=
  if path = [] then none
  else
    let startList := (pySplit ['/'] (abspath cwd cwd)).filter (· ≠ [])
    let pathList := (pySplit ['/'] (abspath cwd path)).filter (· ≠ [])
    let i := commonPrefixLen startList pathList
    let relList :=
      List.replicate (startList.length - i) ['.', '.'] ++ pathList.drop i
    if relList = [] then some ['.']
    else some (pyJoin ['/'] relList)

/-- The separator of neotest case identifiers, `"::"`. -/
def ccSep : PyStr := [':', ':']

/-- The composition the source performs on the file part of an identifier:
`relative_file = os.path.relpath(path, os.getcwd())`;
`relative_stem = os.path.splitext(relative_file)[0]`;
`relative_dotted = relative_stem.replace(os.sep, ".")`. -/
def relativeDotted (cwd path : PyStr) : Option PyStr :=
  (relpath cwd path).map (fun rf => pyReplace ['/'] ['.'] (splitextRoot rf))

/-- `DjangoNeotestAdapter.id_to_unittest_args`, parametrised by the
filesystem predicate `isfile` (`os.path.isfile`) and the working directory
`cwd`.  `none` models an uncaught Python exception (raised by
`os.path.relpath` when the path part of the identifier is empty). -/
def id_to_unittest_args (isfile : PyStr → Bool) (cwd case_id : PyStr) :
    Option (List PyStr) :=
  match pySplit ccSep case_id with
  | [] => none
  | path :: child_ids =>
    if child_ids = [] then
      if isfile path then
        (relativeDotted cwd path).map (fun d => [d])
      else
        some [case_id]
    else
      (relativeDotted cwd path).map (fun d => [pyJoin ['.'] (d :: child_ids)])

/-- Modelled from the spec: `NeotestResultStatus`, imported by the source
from the repository's `base` module whose code is not available; the spec's
Result Record admits the statuses PASSED and FAILED. -/
inductive NeotestResultStatus where
  | PASSED
  | FAILED
deriving DecidableEq, Repr

/-- One element of the `errors` list of a Result Record:
`{"message": ..., "line": ...}`, both values nullable. -/
structure NeotestError where
  message : Option PyStr
  line : Option Int
deriving DecidableEq, Repr

/-- A Result Record as the interceptor builds it, modelled as a Python dict
with a mandatory `status` key and optional `errors` and `short` keys:
`none` in the `errors` or `short` field means the key is absent from the
dict, `some` that it is present (so `short := some none` is a present key
holding Python `None`). -/
structure NeotestResult where
  status : NeotestResultStatus
  errors : Option (List NeotestError)
  short : Option (Option PyStr)
deriving DecidableEq, Repr

/-- One entry of `traceback.extract_tb`: a frame summary carrying the
filename and the 1-based line number of the frame. -/
structure FrameSummary where
  filename : PyStr
  lineno : Int
deriving DecidableEq, Repr

/-- The data the interceptor reads off a live test object via runtime
introspection: the absolute file of its module
(`Path(inspect.getmodule(case).__file__).absolute()`), its class name,
its method name, and whether it is an instance of `django.test.TestCase`. -/
structure PyTest where
  file : PyStr
  className : PyStr
  methodName : PyStr
  isTestCase : Bool
deriving DecidableEq, Repr

/-- The mutable state of a `NeotestTextTestResult`, together with the trace
of calls made to the `stream` callback: `neo_results` models the Python
dict (insertion-ordered association list), `streamed` the sequence of
`stream(case_id, record)` invocations. -/
structure ResultState where
  neo_results : List (PyStr × NeotestResult)
  streamed : List (PyStr × NeotestResult)
deriving DecidableEq, Repr

/-- Python dict assignment `d[k] = v`: overwrite in place if the key is
present, else append. -/
def dictSet (d : List (PyStr × NeotestResult)) (k : PyStr)
    (v : NeotestResult) : List (PyStr × NeotestResult) :=
  if d.any (fun kv => kv.1 == k) then
    d.map (fun kv => if kv.1 == k then (k, v) else kv)
  else
    d ++ [(k, v)]

/-- `NeotestTextTestResult.case_id_elems`: the file, the class name, and,
when the case is a `TestCase`, the test method name. -/
def case_id_elems (test : PyTest) : List PyStr :=
  test.file :: test.className ::
    (if test.isTestCase then [test.methodName] else [])

/-- `NeotestTextTestResult.case_id`: `"::".join(case_id_elems(case))`. -/
def case_id (test : PyTest) : PyStr :=
  pyJoin ccSep (case_id_elems test)

/-- `next(frame.lineno - 1 for frame in reversed(summary) if
frame.filename == case_file)`: the line number, minus one, of the first
frame in the reversed summary whose filename is `case_file`; `none` models
the `StopIteration` the generator raises when no frame matches. -/
def errorLineLookup (case_file : PyStr) (summary : List FrameSummary) :
    Option Int :=
  (summary.reverse.find? (fun fr => fr.filename == case_file)).map
    (fun fr => fr.lineno - 1)

/-- `NeotestTextTestResult.addFailure` (the `super()` bookkeeping and the
diagnostic `print` are external side effects and not modelled): looks up
the error line in the extracted traceback `summary`, stores and streams a
FAILED record; `none` models the uncaught `StopIteration` aborting the
run when no frame of the traceback comes from the test's own file. -/
def addFailure (st : ResultState) (test : PyTest)
    (summary : List FrameSummary) : Option ResultState :=
  let cid := case_id test
  match errorLineLookup test.file summary with
  | none => none
  | some errorLine =>
    let record : NeotestResult :=
      { status := NeotestResultStatus.FAILED
        errors := some [{ message := none, line := some errorLine }]
        short := some none }
    some { neo_results := dictSet st.neo_results cid record
           streamed := st.streamed ++ [(cid, record)] }

/-- `NeotestTextTestResult.addError`: the source duplicates the body of
`addFailure` verbatim (also emitting status FAILED), so the model does
too. -/
def addError (st : ResultState) (test : PyTest)
    (summary : List FrameSummary) : Option ResultState :=
  let cid := case_id test
  match errorLineLookup test.file summary with
  | none => none
  | some errorLine =>
    let record : NeotestResult :=
      { status := NeotestResultStatus.FAILED
        errors := some [{ message := none, line := some errorLine }]
        short := some none }
    some { neo_results := dictSet st.neo_results cid record
           streamed := st.streamed ++ [(cid, record)] }

/-- `NeotestTextTestResult.addSuccess`: stores and streams
`{"status": PASSED}` — a record with no `errors` and no `short` key. -/
def addSuccess (st : ResultState) (test : PyTest) : ResultState :=
  let cid := case_id test
  let record : NeotestResult :=
    { status := NeotestResultStatus.PASSED, errors := none, short := none }
  { neo_results := dictSet st.neo_results cid record
    streamed := st.streamed ++ [(cid, record)] }

/-- `DjangoNeotestAdapter.run`, parametrised by the filesystem, the working
directory, `sys.argv[0]` and the Django runner (external collaborator),
modelled as a function `runTests` from the test-label list to the final
result object.  `run` builds `argv = sys.argv[0:1] +
id_to_unittest_args(args[-1])`, calls `run_tests(test_labels=[argv[1]])`
and returns its value, which `NeotestDjangoRunner.suite_result` defines as
`result.neo_results`.  `none` models an uncaught exception (`args[-1]` on
an empty list, or a raise inside the identifier translation). -/
def run (isfile : PyStr → Bool) (cwd argv0 : PyStr)
    (runTests : List PyStr → ResultState) (args : List PyStr) :
    Option (List (PyStr × NeotestResult)) :=
  match args.getLast? with
  | none => none
  | some lastArg =>
    match id_to_unittest_args isfile cwd lastArg with
    | none => none
    | some targs =>
      let argv := argv0 :: targs
      match argv.get? 1 with
      | none => none
      | some label => some (runTests [label]).neo_results

/-- An empty result state, as `NeotestTextTestResult.__init__` creates. -/
def stEmpty : ResultState :=
  { neo_results := [], streamed := [] }

/-- Concrete test case used in witnesses: `FooTest.test_bar` in
`/proj/tests/test_foo.py`. -/
def testFoo : PyTest :=
  { file := "/proj/tests/test_foo.py".data
    className := "FooTest".data
    methodName := "test_bar".data
    isTestCase := true }

/-- A traceback frame inside library code. -/
def frameLib : FrameSummary :=
  { filename := "/usr/lib/python3/unittest/case.py".data, lineno := 59 }

/-- A traceback frame at line 42 of the test's own file. -/
def frameTest : FrameSummary :=
  { filename := "/proj/tests/test_foo.py".data, lineno := 42 }

/-- A filesystem on which exactly `/proj/tests/test_foo.py` is a file. -/
def isfileFoo : PyStr → Bool :=
  fun p => p == "/proj/tests/test_foo.py".data

/-- The working directory of the witness scenarios. -/
def cwdProj : PyStr := "/proj".data

/-- The file path of the witness scenarios. -/
def fooPath : PyStr := "/proj/tests/test_foo.py".data

/-- `os.path.relpath` only raises on an empty path, so `relativeDotted`
yields a value on every non-empty path. -/
theorem relativeDotted_isSome (cwd path : PyStr) (h : path ≠ []) :
    ∃ d, relativeDotted cwd path = some d := by
  unfold relativeDotted relpath
  rw [if_neg h]
  dsimp only
  split
  · exact ⟨_, rfl⟩
  · exact ⟨_, rfl⟩

/-- C1: a failing test whose captured traceback has at least one frame from
the test's own file gets a Result Record with status FAILED and a
one-element `errors` list `{message: null, line: L - 1}`, where `L` is the
line number of the innermost matching frame — the first match when the
extracted frames are scanned in reverse. -/
theorem addFailure_innermost_matching_frame
    (st : ResultState) (test : PyTest) (summary : List FrameSummary)
    (fr : FrameSummary)
    (hfind : summary.reverse.find? (fun f => f.filename == test.file)
      = some fr) :
    addFailure st test summary =
      some { neo_results := dictSet st.neo_results (case_id test)
               { status := NeotestResultStatus.FAILED
                 errors := some [{ message := none
                                   line := some (fr.lineno - 1) }]
                 short := some none }
             streamed := st.streamed ++ [(case_id test,
               { status := NeotestResultStatus.FAILED
                 errors := some [{ message := none
                                   line := some (fr.lineno - 1) }]
                 short := some none })] } := by
  simp [addFailure, errorLineLookup, hfind]

/-- C1 witness: an exception at line 42 of the test's own file (innermost
frame) yields `status=FAILED`, `errors=[{message: null, line: 41}]`. -/
theorem addFailure_innermost_matching_frame_witness :
    addFailure stEmpty testFoo [frameLib, frameTest] =
      some { neo_results := [(case_id testFoo,
               { status := NeotestResultStatus.FAILED
                 errors := some [{ message := none, line := some 41 }]
                 short := some none })]
             streamed := [(case_id testFoo,
               { status := NeotestResultStatus.FAILED
                 errors := some [{ message := none, line := some 41 }]
                 short := some none })] } := by
  rw [addFailure_innermost_matching_frame stEmpty testFoo
    [frameLib, frameTest] frameTest (by decide)]
  decide

/-- C2: when no traceback frame comes from the test's own file, the line
lookup in `addFailure` and in `addError` finds no match and the uncaught
exhaustion error aborts the call, producing no Result Record. -/
theorem addFailure_addError_no_matching_frame_abort
    (st₁ st₂ : ResultState) (test : PyTest) (summary : List FrameSummary)
    (h : ∀ fr ∈ summary, fr.filename ≠ test.file) :
    addFailure st₁ test summary = none ∧ addError st₂ test summary = none := by
  have hlook : errorLineLookup test.file summary = none := by
    unfold errorLineLookup
    rw [List.find?_eq_none.mpr]
    · rfl
    · intro fr hfr
      simpa using h fr (List.mem_reverse.mp hfr)
  constructor
  · unfold addFailure
    rw [hlook]
  · unfold addError
    rw [hlook]

/-- C2 witness: a traceback made of library frames only aborts both
`addFailure` and `addError`. -/
theorem addFailure_addError_no_matching_frame_abort_witness :
    (∀ fr ∈ [frameLib], fr.filename ≠ testFoo.file) ∧
      addFailure stEmpty testFoo [frameLib] = none ∧
      addError stEmpty testFoo [frameLib] = none :=
  ⟨by decide,
   addFailure_addError_no_matching_frame_abort stEmpty stEmpty testFoo
     [frameLib] (by decide)⟩

/-- C3: an identifier with no `::` child segments whose path is an existing
file translates to the one-element list holding the path relative to the
working directory, extension stripped, separators replaced by dots (the
`relativeDotted` composition).  An existing file has a non-empty name,
whence the last hypothesis. -/
theorem id_to_args_file_no_children
    (isfile : PyStr → Bool) (cwd cid : PyStr)
    (hsplit : pySplit ccSep cid = [cid])
    (hfile : isfile cid = true) (hne : cid ≠ []) :
    ∃ d, relativeDotted cwd cid = some d ∧
      id_to_unittest_args isfile cwd cid = some [d] := by
  obtain ⟨d, hd⟩ := relativeDotted_isSome cwd cid hne
  refine ⟨d, hd, ?_⟩
  unfold id_to_unittest_args
  rw [hsplit]
  simp [hfile, hd]

/-- C3 witness: identifier `/proj/tests/test_foo.py` with cwd `/proj`
yields `["tests.test_foo"]`. -/
theorem id_to_args_file_no_children_witness :
    (∃ d, relativeDotted cwdProj fooPath = some d ∧
        id_to_unittest_args isfileFoo cwdProj fooPath = some [d]) ∧
      id_to_unittest_args isfileFoo cwdProj fooPath
        = some ["tests.test_foo".data] :=
  ⟨id_to_args_file_no_children isfileFoo cwdProj fooPath (by decide)
     (by decide) (by decide),
   by decide⟩

/-- C4 counterexample: the identifier `::x` has a child segment, but its
path portion is empty, so `os.path.relpath` raises `ValueError` and the
translation returns no list at all, against the claim that every
identifier with child segments yields a one-element list. -/
theorem id_to_args_children_empty_path_cex :
    id_to_unittest_args (fun _ => false) "/proj".data "::x".data = none := by
  decide

/-- C4 amended: an identifier with `::` child segments and a non-empty
path portion translates to the one-element list holding the dotted module
path of the file portion followed by the child segments, joined by dots. -/
theorem id_to_args_children_dotted
    (isfile : PyStr → Bool) (cwd cid path c : PyStr) (cs : List PyStr)
    (hsplit : pySplit ccSep cid = path :: c :: cs) (hpath : path ≠ []) :
    ∃ d, relativeDotted cwd path = some d ∧
      id_to_unittest_args isfile cwd cid
        = some [pyJoin ['.'] (d :: c :: cs)] := by
  obtain ⟨d, hd⟩ := relativeDotted_isSome cwd path hpath
  refine ⟨d, hd, ?_⟩
  unfold id_to_unittest_args
  rw [hsplit]
  simp [hd]

/-- C4 witness: identifier `/proj/tests/test_foo.py::FooTest::test_bar`
with cwd `/proj` yields `["tests.test_foo.FooTest.test_bar"]`. -/
theorem id_to_args_children_dotted_witness :
    (∃ d, relativeDotted cwdProj fooPath = some d ∧
        id_to_unittest_args isfileFoo cwdProj
            "/proj/tests/test_foo.py::FooTest::test_bar".data
          = some [pyJoin ['.'] (d :: "FooTest".data :: ["test_bar".data])]) ∧
      id_to_unittest_args isfileFoo cwdProj
          "/proj/tests/test_foo.py::FooTest::test_bar".data
        = some ["tests.test_foo.FooTest.test_bar".data] :=
  ⟨id_to_args_children_dotted isfileFoo cwdProj
     "/proj/tests/test_foo.py::FooTest::test_bar".data fooPath
     "FooTest".data ["test_bar".data] (by decide) (by decide),
   by decide⟩

/-- C5: an identifier with no `::` child segments whose path is not an
existing file is returned unchanged as a one-element list. -/
theorem id_to_args_directory_passthrough
    (isfile : PyStr → Bool) (cwd cid : PyStr)
    (hsplit : pySplit ccSep cid = [cid]) (hdir : isfile cid = false) :
    id_to_unittest_args isfile cwd cid = some [cid] := by
  unfold id_to_unittest_args
  rw [hsplit]
  simp [hdir]

/-- C5 witness: the directory identifier `/proj/tests` passes through
unchanged. -/
theorem id_to_args_directory_passthrough_witness :
    id_to_unittest_args isfileFoo cwdProj "/proj/tests".data
      = some ["/proj/tests".data] :=
  id_to_args_directory_passthrough isfileFoo cwdProj "/proj/tests".data
    (by decide) (by decide)

/-- C6 counterexample: the record `addSuccess` stores and streams for a
passing test is `{"status": PASSED}` alone — the `errors` and `short` keys
are absent, against the claim that every emitted record carries all three
fields. -/
theorem result_record_all_fields_cex :
    ¬ (∀ kv ∈ (addSuccess stEmpty testFoo).streamed,
        kv.2.errors.isSome ∧ kv.2.short.isSome) := by
  decide

/-- C6 amended: records emitted for failures and errors carry all three
fields — status FAILED, an `errors` list of exactly one element
`{message: null, line: some line}`, and a present (null) `short` — while
the record emitted for a success carries only `status: PASSED`, with no
`errors` or `short` key. -/
theorem result_record_fields
    (st₁ st₂ st₃ : ResultState) (t₁ t₂ t₃ : PyTest)
    (s₁ s₂ : List FrameSummary) (st₁' st₂' : ResultState)
    (h₁ : addFailure st₁ t₁ s₁ = some st₁')
    (h₂ : addError st₂ t₂ s₂ = some st₂') :
    (∃ el, st₁'.streamed = st₁.streamed ++ [(case_id t₁,
        { status := NeotestResultStatus.FAILED
          errors := some [{ message := none, line := some el }]
          short := some none })]) ∧
    (∃ el, st₂'.streamed = st₂.streamed ++ [(case_id t₂,
        { status := NeotestResultStatus.FAILED
          errors := some [{ message := none, line := some el }]
          short := some none })]) ∧
    (addSuccess st₃ t₃).streamed = st₃.streamed ++ [(case_id t₃,
        { status := NeotestResultStatus.PASSED
          errors := none
          short := none })] := by
  refine ⟨?_, ?_, rfl⟩
  · revert h₁
    unfold addFailure
    cases errorLineLookup t₁.file s₁ with
    | none => intro h; cases h
    | some l =>
      intro h
      injection h with h
      subst h
      exact ⟨l, rfl⟩
  · revert h₂
    unfold addError
    cases errorLineLookup t₂.file s₂ with
    | none => intro h; cases h
    | some l =>
      intro h
      injection h with h
      subst h
      exact ⟨l, rfl⟩

/-- C6 witness: the amended shape at a concrete failing, erroring and
passing run. -/
theorem result_record_fields_witness :
    (∃ el, ((addFailure stEmpty testFoo [frameTest]).getD stEmpty).streamed
        = stEmpty.streamed ++ [(case_id testFoo,
            { status := NeotestResultStatus.FAILED
              errors := some [{ message := none, line := some el }]
              short := some none })]) ∧
    (∃ el, ((addError stEmpty testFoo [frameTest]).getD stEmpty).streamed
        = stEmpty.streamed ++ [(case_id testFoo,
            { status := NeotestResultStatus.FAILED
              errors := some [{ message := none, line := some el }]
              short := some none })]) ∧
    (addSuccess stEmpty testFoo).streamed
      = stEmpty.streamed ++ [(case_id testFoo,
          { status := NeotestResultStatus.PASSED
            errors := none
            short := none })] :=
  result_record_fields stEmpty stEmpty stEmpty testFoo testFoo testFoo
    [frameTest] [frameTest]
    ((addFailure stEmpty testFoo [frameTest]).getD stEmpty)
    ((addError stEmpty testFoo [frameTest]).getD stEmpty)
    (by decide) (by decide)

/-- C7: for a passing test, `addSuccess` invokes the streaming callback
exactly once, with a Result Record of status PASSED that has no `errors`
key. -/
theorem addSuccess_streams_once_passed (st : ResultState) (t : PyTest) :
    (addSuccess st t).streamed = st.streamed ++ [(case_id t,
        { status := NeotestResultStatus.PASSED
          errors := none
          short := none })] :=
  rfl

/-- C9: `run` reads only the last element of its argument list, translates
it, hands exactly the resolved label to the Django runner and returns the
runner's `suite_result`, which is the interceptor's accumulated
`neo_results` mapping. -/
theorem run_uses_last_arg
    (isfile : PyStr → Bool) (cwd argv0 : PyStr)
    (runTests : List PyStr → ResultState) (pre : List PyStr)
    (lastArg label : PyStr)
    (ht : id_to_unittest_args isfile cwd lastArg = some [label]) :
    run isfile cwd argv0 runTests (pre ++ [lastArg])
        = some (runTests [label]).neo_results ∧
      run isfile cwd argv0 runTests (pre ++ [lastArg])
        = run isfile cwd argv0 runTests [lastArg] := by
  have hlast : (pre ++ [lastArg]).getLast? = some lastArg := by
    rw [List.getLast?_append_cons]
    rfl
  have key : ∀ args : List PyStr, args.getLast? = some lastArg →
      run isfile cwd argv0 runTests args
        = some (runTests [label]).neo_results := by
    intro args hargs
    unfold run
    rw [hargs]
    dsimp only
    rw [ht]
    rfl
  exact ⟨key _ hlast, (key _ hlast).trans (key [lastArg] (by simp)).symm⟩

/-- C9 witness: with an extra ignored argument ahead of the identifier,
`run` still resolves `/proj/tests/test_foo.py` and returns the runner's
`neo_results`. -/
theorem run_uses_last_arg_witness :
    id_to_unittest_args isfileFoo cwdProj fooPath
        = some ["tests.test_foo".data] ∧
      (run isfileFoo cwdProj "neotest.py".data (fun _ => stEmpty)
          (["ignored".data] ++ [fooPath])
          = some ((fun (_ : List PyStr) => stEmpty) ["tests.test_foo".data]).neo_results ∧
        run isfileFoo cwdProj "neotest.py".data (fun _ => stEmpty)
            (["ignored".data] ++ [fooPath])
          = run isfileFoo cwdProj "neotest.py".data (fun _ => stEmpty)
              [fooPath]) :=
  ⟨by decide,
   run_uses_last_arg isfileFoo cwdProj "neotest.py".data (fun _ => stEmpty)
     ["ignored".data] fooPath "tests.test_foo".data (by decide)⟩

/-- C10 counterexample: on the identifier `::` (empty path portion with a
child segment) the translation raises instead of returning a list, so not
every input yields a one-element list. -/
theorem id_to_args_singleton_cex :
    id_to_unittest_args (fun _ => false) "/proj".data "::".data = none := by
  decide

/-- C10 amended: whenever the translation completes without raising, the
returned argument list has exactly one element; no input yields an empty
or multi-element list. -/
theorem id_to_args_singleton
    (isfile : PyStr → Bool) (cwd cid : PyStr) (l : List PyStr)
    (h : id_to_unittest_args isfile cwd cid = some l) :
    l.length = 1 := by
  unfold id_to_unittest_args at h
  revert h
  cases pySplit ccSep cid with
  | nil => intro h; cases h
  | cons path child_ids =>
    dsimp only
    by_cases hc : child_ids = []
    · rw [if_pos hc]
      by_cases hf : isfile path = true
      · rw [if_pos hf]
        cases relativeDotted cwd path with
        | none => intro h; cases h
        | some d =>
          intro h
          injection h with h
          subst h
          rfl
      · rw [if_neg hf]
        intro h
        injection h with h
        subst h
        rfl
    · rw [if_neg hc]
      cases relativeDotted cwd path with
      | none => intro h; cases h
      | some d =>
        intro h
        injection h with h
        subst h
        rfl

/-- Does `sep` occur as a contiguous substring of `s`? -/
def occursIn (sep : PyStr) : PyStr → Bool
  | [] => sep == []
  | c :: rest => sep.isPrefixOf (c :: rest) || occursIn sep rest

/-- An element is safe for the `"::"` join/split round trip when it
contains no occurrence of `"::"` and does not end in `':'`. -/
def okElem (e : PyStr) : Bool :=
  !(occursIn ccSep e) && !(e.getLast? == some ':')

theorem okElem_no_occurrence {e : PyStr} (h : okElem e = true) :
    occursIn ccSep e = false := by
  simp only [okElem, Bool.and_eq_true, Bool.not_eq_true'] at h
  exact h.1

theorem okElem_of_cons {c : Char} {e : PyStr}
    (h : okElem (c :: e) = true) : okElem e = true := by
  cases e with
  | nil => decide
  | cons d e' =>
    simp only [okElem, occursIn, Bool.and_eq_true, Bool.not_eq_true',
      Bool.or_eq_false_iff, List.getLast?_cons_cons] at h ⊢
    exact ⟨h.1.2, h.2⟩

/-- The result of `pySplitF` does not depend on the fuel once the fuel
covers the string length. -/
theorem pySplitF_fuel_irrel (fuel₁ fuel₂ : Nat) (s acc : PyStr)
    (h₁ : s.length ≤ fuel₁) (h₂ : s.length ≤ fuel₂) :
    pySplitF ccSep fuel₁ s acc = pySplitF ccSep fuel₂ s acc := by
  induction fuel₁ generalizing fuel₂ s acc with
  | zero =>
    have hs : s = [] := List.length_eq_zero.mp (Nat.le_zero.mp h₁)
    subst hs
    cases fuel₂ <;> rfl
  | succ f ih =>
    cases s with
    | nil => cases fuel₂ <;> rfl
    | cons c rest =>
      cases fuel₂ with
      | zero => simp at h₂
      | succ g =>
        simp only [pySplitF]
        by_cases hp : ccSep.isPrefixOf (c :: rest) = true
        · rw [if_pos hp, if_pos hp]
          have hlen : (rest.drop (ccSep.length - 1)).length ≤ f := by
            simp only [List.length_drop]
            simp only [List.length_cons] at h₁
            omega
          have hlen' : (rest.drop (ccSep.length - 1)).length ≤ g := by
            simp only [List.length_drop]
            simp only [List.length_cons] at h₂
            omega
          rw [ih _ _ _ hlen hlen']
        · rw [if_neg hp, if_neg hp]
          have hlen : rest.length ≤ f := by
            simp only [List.length_cons] at h₁
            omega
          have hlen' : rest.length ≤ g := by
            simp only [List.length_cons] at h₂
            omega
          exact ih _ _ _ hlen hlen'

/-- A string with no occurrence of the separator is returned whole. -/
theorem pySplitF_no_occurrence (s : PyStr) :
    ∀ (fuel : Nat) (acc : PyStr), s.length ≤ fuel →
      occursIn ccSep s = false →
      pySplitF ccSep fuel s acc = [acc.reverse ++ s] := by
  induction s with
  | nil => intro fuel acc _ _; cases fuel <;> simp [pySplitF]
  | cons c rest ih =>
    intro fuel acc hf hocc
    cases fuel with
    | zero => simp at hf
    | succ f =>
      simp only [occursIn, Bool.or_eq_false_iff] at hocc
      simp only [pySplitF, hocc.1, if_neg]
      rw [ih f (c :: acc) (by simp only [List.length_cons] at hf; omega)
        hocc.2]
      simp

/-- Scanning `e ++ "::" ++ r` with a safe element `e` cuts exactly at the
boundary. -/
theorem pySplitF_boundary (e : PyStr) :
    ∀ (r acc : PyStr) (fuel : Nat), (e ++ ccSep ++ r).length ≤ fuel →
      okElem e = true →
      pySplitF ccSep fuel (e ++ ccSep ++ r) acc
        = (acc.reverse ++ e) :: pySplitF ccSep r.length r [] := by
  induction e with
  | nil =>
    intro r acc fuel hf _
    cases fuel with
    | zero => simp [ccSep] at hf
    | succ f =>
      have hshow : ([] : PyStr) ++ ccSep ++ r = ':' :: ':' :: r := rfl
      rw [hshow] at hf ⊢
      have hp : ccSep.isPrefixOf (':' :: ':' :: r) = true := by
        simp [ccSep, List.isPrefixOf]
      simp only [pySplitF, hp, if_pos]
      have hdrop : (':' :: r).drop (ccSep.length - 1) = r := rfl
      rw [hdrop, pySplitF_fuel_irrel f r.length r []
        (by simp only [List.length_cons] at hf; omega) le_rfl]
      simp
  | cons c e' ih =>
    intro r acc fuel hf he
    cases fuel with
    | zero => simp at hf
    | succ f =>
      have hshow : (c :: e') ++ ccSep ++ r = c :: (e' ++ ccSep ++ r) := by
        simp
      rw [hshow] at hf ⊢
      have hp : ccSep.isPrefixOf (c :: (e' ++ ccSep ++ r)) = false := by
        cases e' with
        | nil =>
          have hc : (c = ':') → False := by
            intro hcc
            subst hcc
            exact absurd he (by decide)
          simp only [List.nil_append]
          show ([':', ':'].isPrefixOf (c :: ':' :: ':' :: r)) = false
          simp only [List.isPrefixOf, Bool.and_eq_false_iff]
          left
          exact beq_eq_false_iff_ne.mpr (fun h => hc h.symm)
        | cons d e'' =>
          have hpe : ccSep.isPrefixOf (c :: d :: e'') = false := by
            have := okElem_no_occurrence he
            simp only [occursIn, Bool.or_eq_false_iff] at this
            exact this.1
          show ([':', ':'].isPrefixOf (c :: d :: (e'' ++ ccSep ++ r)))
            = false
          have hpe' : ([':', ':'].isPrefixOf (c :: d :: e'')) = false := hpe
          simp only [List.isPrefixOf, Bool.and_eq_false_iff] at hpe' ⊢
          rcases hpe' with h | h
          · exact Or.inl h
          · rcases h with h | h
            · exact Or.inr (Or.inl h)
            · cases h
      simp only [pySplitF, hp, if_neg]
      rw [ih r (c :: acc) f
        (by simp only [List.length_cons] at hf; omega)
        (okElem_of_cons he)]
      simp

/-- Python split is the left inverse of Python join on `"::"` for a
non-empty list of safe elements. -/
theorem pySplit_pyJoin (l : List PyStr) (hne : l ≠ [])
    (hok : ∀ e ∈ l, okElem e = true) :
    pySplit ccSep (pyJoin ccSep l) = l := by
  induction l with
  | nil => cases hne rfl
  | cons x xs ih =>
    cases xs with
    | nil =>
      show pySplit ccSep x = [x]
      unfold pySplit
      rw [pySplitF_no_occurrence x x.length [] le_rfl
        (okElem_no_occurrence (hok x (List.mem_singleton.mpr rfl)))]
      simp
    | cons y ys =>
      have hjoin : pyJoin ccSep (x :: y :: ys)
          = x ++ ccSep ++ pyJoin ccSep (y :: ys) := rfl
      unfold pySplit
      rw [hjoin, pySplitF_boundary x (pyJoin ccSep (y :: ys)) []
        (x ++ ccSep ++ pyJoin ccSep (y :: ys)).length le_rfl
        (hok x (List.mem_cons_self _ _))]
      have : pySplitF ccSep (pyJoin ccSep (y :: ys)).length
          (pyJoin ccSep (y :: ys)) [] = pySplit ccSep (pyJoin ccSep (y :: ys)) := rfl
      rw [this, ih (by simp) (fun e he => hok e (List.mem_cons_of_mem _ he))]
      simp

/-- C10 witness: a completed translation at a concrete file identifier is
a one-element list. -/
theorem id_to_args_singleton_witness :
    id_to_unittest_args isfileFoo cwdProj fooPath
        = some ["tests.test_foo".data] ∧
      ["tests.test_foo".data].length = 1 :=
  ⟨by decide,
   id_to_args_singleton isfileFoo cwdProj fooPath ["tests.test_foo".data]
     (by decide)⟩

/-- C8 counterexample: for a test living in a file whose path itself
contains `::`, splitting the recorded key on `::` yields more pieces than
the recorded elements, so the round trip fails as stated. -/
theorem case_id_roundtrip_cex :
    pySplit ccSep (case_id
        { file := "/a::b.py".data
          className := "C".data
          methodName := "m".data
          isTestCase := true })
      ≠ case_id_elems
        { file := "/a::b.py".data
          className := "C".data
          methodName := "m".data
          isTestCase := true } := by
  decide

/-- C8 amended: splitting a Result Record's key on `::` reconstructs the
recorded `(file, class name, method name)` elements exactly, provided no
recorded element contains `::` or ends in `:` — class and method names are
Python identifiers and cannot, and ordinary file paths do not. -/
theorem case_id_roundtrip (t : PyTest)
    (hok : ∀ e ∈ case_id_elems t, okElem e = true) :
    pySplit ccSep (case_id t) = case_id_elems t :=
  pySplit_pyJoin (case_id_elems t)
    (by simp [case_id_elems]) hok

/-- C8 witness: the key of `FooTest.test_bar` in
`/proj/tests/test_foo.py` splits back into its three elements. -/
theorem case_id_roundtrip_witness :
    (∀ e ∈ case_id_elems testFoo, okElem e = true) ∧
      pySplit ccSep (case_id testFoo) = case_id_elems testFoo :=
  ⟨by decide, case_id_roundtrip testFoo (by decide)⟩

end Djangotest
